import Mathlib

/-!
Verification development for a minimal predictable state container
(store core in src/createStore.ts, reducer composer in the unnamed
combineReducers source file).

Modelling conventions (shallow embedding):
* JavaScript values held in state slices are abstracted as `V := Nat`;
  equality on `V` models the JavaScript identity comparison used by the
  source (`===` / `!==`).
* Exceptions become explicit `Except Err` results.  Store-mutating
  operations return the (possibly updated) store state next to the
  `Except` result, because a JavaScript exception unwinds the stack but
  leaves the heap - and hence the store closure's variables - intact.
* The mutable closure variables of `createStore` become the fields of an
  explicit record `StoreSt` threaded through every operation.
* Listener callbacks are defunctionalized as `LProg` programs interpreted
  by the notification loop, so that a listener may itself subscribe or
  dispatch, as in the source.  A fuel parameter models the JavaScript
  call-stack depth for nested dispatches.
* Array / object reference identity, where the source depends on it, is
  modelled explicitly: composite state objects carry an `oid`, actions an
  `aid`, and the `listenersShared` flag models the reference equality test
  `nextListeners === currentListeners`.
-/

namespace Redux

/-- Abstract JavaScript value held in a state slice; equality models `===`. -/
abbrev V := Nat

/-- Error taxonomy.  The source only throws `Error(message)`; the
constructors classify each throw site (argument validation, action shape
validation, reentrancy guard, reducer contract violation) and carry the
message text of the corresponding `throw` in the source (apostrophes in the
original texts are spelled out as "do not" and the like).  `outOfFuel` is a
model artifact: it is returned only when the fuel modelling the JavaScript
call stack is exhausted. -/
inductive Err where
  | argumentError (msg : String)
  | actionShapeError (msg : String)
  | reentrancyError (msg : String)
  | reducerContractError (msg : String)
  | outOfFuel
deriving DecidableEq

/-- Reserved action types.  Modelled from the spec: the module
`utils/actionTypes` is not among the provided sources; per the spec these
are process-wide constants `@@redux/INIT`, `@@redux/REPLACE` and a
randomized probe marker, each carrying a random suffix.  The randomness is
abstracted as a fixed suffix chosen once. -/
def ActionTypes.INIT : String := "@@redux/INITg.r.7"

/-- Modelled from the spec: reserved REPLACE action type, see `ActionTypes.INIT`. -/
def ActionTypes.REPLACE : String := "@@redux/REPLACEg.r.7"

/-- Modelled from the spec: randomized probe action type, see `ActionTypes.INIT`. -/
def ActionTypes.PROBE_UNKNOWN : String := "@@redux/PROBE_UNKNOWN_ACTIONg.r.7"

/-- An action object.  `aid` models the identity of the JavaScript object
(dispatch returns the very object it received).  `isPlain` models the
result of `isPlainObject(action)` - that utility module is not among the
provided sources, so, modelled from the spec, an action simply records
whether it is a plain structural mapping.  `type := none` models an
undefined `type` field; defined `type` values are abstracted as strings. -/
structure Action where
  aid : Nat
  isPlain : Bool
  type : Option String
deriving DecidableEq

/-- A root transition function as stored in the store core: it receives the
current state (`none` models `undefined`) and the action, and either throws
or returns the next state (`none` models returning `undefined`, which the
store core does not reject). -/
abbrev RRed (S : Type) := Option S → Action → Except Err (Option S)

/-- Defunctionalized listener behaviours, interpreted by the notification
loop: do nothing, append a tag to the instrumentation log, call
`store.subscribe` with another listener, or call `store.dispatch`. -/
inductive LProg where
  | nop
  | record (tag : Nat)
  | subscribeNew (l : Nat)
  | dispatchAct (a : Action)
  | dispatchOnce (tag : Nat) (a : Action)
deriving DecidableEq

/-- The mutable closure state of `createStore`: `currentReducer`,
`currentState`, `currentListeners` (which the source can set to `null`,
modelled by `none`), `nextListeners`, and `isDispatching`.  Listener
functions are identified by `Nat` ids.  `sid` models the identity of the
store object returned by `createStore` (so that "returns the same store
instance" is expressible).  `listenersShared` models the reference equality
`nextListeners === currentListeners`.  `log` is instrumentation recording
the observable effects of `LProg.record` listeners. -/
structure StoreSt (S : Type) where
  sid : Nat
  currentReducer : RRed S
  currentState : Option S
  currentListeners : Option (List Nat)
  nextListeners : List Nat
  listenersShared : Bool
  isDispatching : Bool
  log : List Nat

/-- Invariant tying the `listenersShared` flag to its meaning: whenever the
flag says the two listener lists are the same array, they hold the same
contents.  Every store produced by the model operations satisfies it. -/
def StoreInv {S : Type} (st : StoreSt S) : Prop :=
  st.listenersShared = true → st.currentListeners = some st.nextListeners

instance {S : Type} (st : StoreSt S) : Decidable (StoreInv st) := by
  unfold StoreInv; infer_instance

/-- Message of the reentrancy throw in `getState`. -/
def getStateDispatchingMessage : String :=
  "You may not call store.getState() while the reducer is executing. " ++
  "The reducer has already received the state as an argument. " ++
  "Pass it down from the top reducer instead of reading it from the store."

/-- Message of the reentrancy throw in `subscribe`. -/
def subscribeDispatchingMessage : String :=
  "You may not call store.subscribe() while the reducer is executing. " ++
  "If you would like to be notified after the store has been updated, subscribe from a " ++
  "component and invoke store.getState() in the callback to access the latest state. " ++
  "See https://redux.js.org/api-reference/store#subscribelistener for more details."

/-- Message of the reentrancy throw in `unsubscribe`. -/
def unsubscribeDispatchingMessage : String :=
  "You may not unsubscribe from a store listener while the reducer is executing. " ++
  "See https://redux.js.org/api-reference/store#subscribelistener for more details."

/-- Message of the plain-object validation throw in `dispatch`. -/
def plainObjectMessage : String :=
  "Actions must be plain objects. Use custom middleware for async actions."

/-- Message of the undefined-type validation throw in `dispatch`. -/
def undefinedTypeMessage : String :=
  "Actions may not have an undefined \x22type\x22 property. Have you misspelled a constant?"

/-- Message of the reentrancy throw in `dispatch`. -/
def reducersMayNotDispatchMessage : String :=
  "Reducers may not dispatch actions."

/-- Source: `ensureCanMutateNextListeners`.  If `nextListeners` and
`currentListeners` are the same array, replace `nextListeners` with a
shallow copy of `currentListeners`. -/
def ensureCanMutateNextListeners {S : Type} (st : StoreSt S) : StoreSt S :=
  if st.listenersShared then
    { st with
      nextListeners := (match st.currentListeners with
        | some l => l
        | none => st.nextListeners),
      listenersShared := false }
  else st

/-- Source: `getState`.  Throws while a dispatch is in progress, otherwise
returns the current state reference. -/
def getState {S : Type} (st : StoreSt S) : Except Err (Option S) :=
  if st.isDispatching then
    Except.error (Err.reentrancyError getStateDispatchingMessage)
  else
    Except.ok st.currentState

/-- Source: `subscribe`.  (Listeners are always callables in the model, so
the listener-typeof check cannot fire.)  Throws while a dispatch is in
progress; otherwise pushes the listener onto `nextListeners` after the
copy-on-write step.  The returned closure state `isSubscribed = true` is
represented by `Subscription` below. -/
def subscribe {S : Type} (st : StoreSt S) (listener : Nat) :
    StoreSt S × Except Err Unit :=
  if st.isDispatching then
    (st, Except.error (Err.reentrancyError subscribeDispatchingMessage))
  else
    let st1 := ensureCanMutateNextListeners st
    ({ st1 with nextListeners := st1.nextListeners ++ [listener] }, Except.ok ())

/-- The closure state of one `unsubscribe` function returned by
`subscribe`: the captured listener and the mutable `isSubscribed` flag. -/
structure Subscription where
  listener : Nat
  isSubscribed : Bool
deriving DecidableEq

/-- JavaScript `Array.prototype.indexOf`: index of the first occurrence or `-1`. -/
def jsIndexOf (l : List Nat) (x : Nat) : Int :=
  match l.findIdx? (fun y => y = x) with
  | some i => (i : Int)
  | none => -1

/-- JavaScript `Array.prototype.splice(start, 1)`: removes one element at
`start`, counting from the end when `start` is negative. -/
def jsSplice1 (l : List Nat) (start : Int) : List Nat :=
  let n : Int := l.length
  let s : Int := if start < 0 then max (n + start) 0 else min start n
  l.eraseIdx s.toNat

/-- Source: the `unsubscribe` closure returned by `subscribe`.  No-op once
`isSubscribed` is cleared; throws while a dispatch is in progress; else
clears the flag, removes the first occurrence of the listener from
`nextListeners` (via `indexOf` and `splice`), and nulls out
`currentListeners`. -/
def unsubscribe {S : Type} (st : StoreSt S) (sub : Subscription) :
    StoreSt S × Subscription × Except Err Unit :=
  if sub.isSubscribed = false then
    (st, sub, Except.ok ())
  else if st.isDispatching then
    (st, sub, Except.error (Err.reentrancyError unsubscribeDispatchingMessage))
  else
    let sub1 : Subscription := { sub with isSubscribed := false }
    let st1 := ensureCanMutateNextListeners st
    let idx := jsIndexOf st1.nextListeners sub.listener
    ({ st1 with
        nextListeners := jsSplice1 st1.nextListeners idx,
        currentListeners := none,
        listenersShared := false },
      sub1, Except.ok ())

/-- The listener notification loop of `dispatch`
(`for (let i = 0; i < listeners.length; i++) listener()`), interpreting
each listener's `LProg`.  A listener that throws (for instance a nested
dispatch that fails) aborts the loop and the exception propagates.  The
dispatch function available to listeners is passed as `dsp` (it is the
model dispatch at one lower fuel). -/
def notifyListeners {S : Type}
    (dsp : StoreSt S → Action → StoreSt S × Except Err Action)
    (lenv : Nat → LProg) :
    List Nat → StoreSt S → StoreSt S × Except Err Unit
  | [], st => (st, Except.ok ())
  | l :: rest, st =>
    match lenv l with
    | LProg.nop => notifyListeners dsp lenv rest st
    | LProg.record tag =>
      notifyListeners dsp lenv rest { st with log := st.log ++ [tag] }
    | LProg.subscribeNew l2 =>
      match subscribe st l2 with
      | (st2, Except.error e) => (st2, Except.error e)
      | (st2, Except.ok _) => notifyListeners dsp lenv rest st2
    | LProg.dispatchAct a =>
      match dsp st a with
      | (st2, Except.error e) => (st2, Except.error e)
      | (st2, Except.ok _) => notifyListeners dsp lenv rest st2
    | LProg.dispatchOnce tag a =>
      -- a listener closure with a private fired-once guard: on its first
      -- invocation it marks the guard (observable in the log) and calls
      -- `store.dispatch`; afterwards it does nothing
      if tag ∈ st.log then
        notifyListeners dsp lenv rest st
      else
        match dsp { st with log := st.log ++ [tag] } a with
        | (st2, Except.error e) => (st2, Except.error e)
        | (st2, Except.ok _) => notifyListeners dsp lenv rest st2

/-- Source: `dispatch`.  Validates the action shape, rejects reentrant
calls while `isDispatching`, then runs the current reducer inside the
try/finally (so the flag is cleared on both exit paths and the state is
assigned only when the reducer returns normally), freezes the listener
snapshot (`currentListeners = nextListeners`), runs every listener in that
frozen snapshot, and returns the very action object it received.  `fuel`
models the JavaScript call-stack depth available for nested dispatches
issued by listeners. -/
def dispatch {S : Type} (lenv : Nat → LProg) :
    Nat → StoreSt S → Action → StoreSt S × Except Err Action
  | 0, st, _ => (st, Except.error Err.outOfFuel)
  | fuel + 1, st, action =>
    if action.isPlain = false then
      (st, Except.error (Err.actionShapeError plainObjectMessage))
    else if action.type = none then
      (st, Except.error (Err.actionShapeError undefinedTypeMessage))
    else if st.isDispatching then
      (st, Except.error (Err.reentrancyError reducersMayNotDispatchMessage))
    else
      match st.currentReducer st.currentState action with
      | Except.error e => ({ st with isDispatching := false }, Except.error e)
      | Except.ok newState =>
        let stAfter : StoreSt S :=
          { st with
              currentState := newState,
              isDispatching := false,
              currentListeners := some st.nextListeners,
              listenersShared := true }
        match notifyListeners (dispatch lenv fuel) lenv st.nextListeners stAfter with
        | (st2, Except.error e) => (st2, Except.error e)
        | (st2, Except.ok _) => (st2, Except.ok action)

/-- The action object `{ type: ActionTypes.REPLACE }` allocated by
`replaceReducer`; a fresh plain object with a defined type. -/
def replaceAction : Action :=
  { aid := 2, isPlain := true, type := some ActionTypes.REPLACE }

/-- Source: `replaceReducer`.  Throws if the argument is not callable
(`none` models a non-function argument); otherwise swaps
`currentReducer` and then dispatches the reserved REPLACE action.  The
source returns the same `store` object; here the threaded store state is
returned, with `sid` untouched on every path. -/
def replaceReducer {S : Type} (lenv : Nat → LProg) (fuel : Nat)
    (st : StoreSt S) (nextReducer : Option (RRed S)) :
    StoreSt S × Except Err Unit :=
  match nextReducer with
  | none =>
    (st, Except.error (Err.argumentError "Expected the nextReducer to be a function."))
  | some r =>
    let st1 : StoreSt S := { st with currentReducer := r }
    match dispatch lenv fuel st1 replaceAction with
    | (st2, Except.error e) => (st2, Except.error e)
    | (st2, Except.ok _) => (st2, Except.ok ())

/-! Reducer composer (`combineReducers` source file). -/

/-- A per-key transition function as consumed by the composer: receives the
slice state (`none` models `undefined`) and the action, and returns the
next slice state (`none` models returning `undefined`; per-key reducers in
the source do not throw on their own - a throw inside one would simply
propagate, which the composer never catches, so the interesting contract is
the undefined-return one). -/
abbrev SliceRed := Option V → Action → Option V

/-- A composite state object: a JavaScript object with its identity `oid`
and its fields in insertion order.  Equality of `oid`s models reference
equality of objects. -/
structure JObj where
  oid : Nat
  fields : List (String × V)
deriving DecidableEq

/-- JavaScript property read `state[key]` (`none` models `undefined`). -/
def jGet (o : JObj) (k : String) : Option V :=
  (o.fields.find? (fun p => p.1 = k)).map (fun p => p.2)

/-- JavaScript `Object.keys(state).length`. -/
def jKeysLength (o : JObj) : Nat := o.fields.length

/-- Source: `getUndefinedStateErrorMessage`.  (`actionType && ...` is falsy
both for an undefined type and for the empty string.) -/
def getUndefinedStateErrorMessage (key : String) (action : Action) : String :=
  let actionDescription :=
    match action.type with
    | some t => if t = "" then "an action" else "action \x22" ++ t ++ "\x22"
    | none => "an action"
  "Given " ++ actionDescription ++ ", reducer \x22" ++ key ++ "\x22 returned undefined. " ++
  "To ignore an action, you must explicitly return the previous state. " ++
  "If you want this reducer to hold no value, you can return null instead of undefined."

/-- Message of the initialization throw in `assertReducerShape`. -/
def initializationUndefinedMessage (key : String) : String :=
  "Reducer \x22" ++ key ++ "\x22 returned undefined during initialization. " ++
  "If the state passed to the reducer is undefined, you must " ++
  "explicitly return the initial state. The initial state may " ++
  "not be undefined. If you do not want to set a value for this reducer, " ++
  "you can use null instead of undefined."

/-- Message of the random-probe throw in `assertReducerShape`. -/
def probeUndefinedMessage (key : String) : String :=
  "Reducer \x22" ++ key ++ "\x22 returned undefined when probed with a random type. " ++
  "Do not try to handle " ++ ActionTypes.INIT ++ " or other actions in \x22redux/*\x22 " ++
  "namespace. They are considered private. Instead, you must return the " ++
  "current state for any unknown actions, unless it is undefined, " ++
  "in which case you must return the initial state, regardless of the " ++
  "action type. The initial state may not be undefined, but can be null."

/-- The `{ type: ActionTypes.INIT }` literal allocated inside
`assertReducerShape`. -/
def shapeInitAction : Action :=
  { aid := 3, isPlain := true, type := some ActionTypes.INIT }

/-- The `{ type: ActionTypes.PROBE_UNKNOWN_ACTION() }` literal allocated
inside `assertReducerShape`. -/
def shapeProbeAction : Action :=
  { aid := 4, isPlain := true, type := some ActionTypes.PROBE_UNKNOWN }

/-- Source: `assertReducerShape`.  Probes every retained reducer with the
reserved INIT action and then with the randomized probe action; the first
undefined result raises (here: returns) the corresponding contract error.
`none` means every reducer passed both probes. -/
def assertReducerShape : List (String × SliceRed) → Option Err
  | [] => none
  | (key, reducer) :: rest =>
    if reducer none shapeInitAction = none then
      some (Err.reducerContractError (initializationUndefinedMessage key))
    else if reducer none shapeProbeAction = none then
      some (Err.reducerContractError (probeUndefinedMessage key))
    else
      assertReducerShape rest

/-- The data captured by the closure `combination` returned from
`combineReducers`: the retained per-key reducers (`finalReducers`, in key
order) and the captured validation error, if any. -/
structure Combined where
  finalReducers : List (String × SliceRed)
  shapeAssertionError : Option Err

/-- Source: `combineReducers`.  Drops entries whose value is not a function
(`none` models a non-callable entry), runs the one-shot shape assertion
over the retained entries and captures - without raising - its error.
(The development-mode `warning` calls have no observable effect on the
returned values and are not modelled.) -/
def combineReducers (reducers : List (String × Option SliceRed)) : Combined :=
  let finalReducers :=
    reducers.filterMap (fun p => p.2.map (fun r => (p.1, r)))
  { finalReducers := finalReducers,
    shapeAssertionError := assertReducerShape finalReducers }

/-- The per-key loop of `combination`: for each retained key in order,
extract the previous slice, run the reducer, raise the contract error on an
undefined result, and accumulate the next fields together with the
`hasChanged` accumulator (`nextStateForKey !== previousStateForKey`). -/
def combinationCore (state : JObj) (action : Action) :
    List (String × SliceRed) → Except Err (List (String × V) × Bool)
  | [] => Except.ok ([], false)
  | (key, reducer) :: rest =>
    let previousStateForKey := jGet state key
    match reducer previousStateForKey action with
    | none =>
      Except.error (Err.reducerContractError (getUndefinedStateErrorMessage key action))
    | some nextStateForKey =>
      match combinationCore state action rest with
      | Except.error e => Except.error e
      | Except.ok (ns, hc) =>
        Except.ok ((key, nextStateForKey) :: ns,
          (decide (some nextStateForKey ≠ previousStateForKey) || hc))

/-- Source: the closure `combination` returned by `combineReducers`.
Re-raises the captured shape error on every call; defaults an undefined
incoming state to `{}`; runs every retained reducer; treats a per-key
reference change or a key-count difference as a change; returns the
original state reference when nothing changed, else a newly constructed
object.  `freshOid` is the identity of whatever new object the call
allocates (the defaulted `{}` or the new `nextState`), assumed fresh by the
caller. -/
def combination (c : Combined) (state? : Option JObj) (freshOid : Nat)
    (action : Action) : Except Err JObj :=
  match c.shapeAssertionError with
  | some e => Except.error e
  | none =>
    let state := state?.getD { oid := freshOid, fields := [] }
    match combinationCore state action c.finalReducers with
    | Except.error e => Except.error e
    | Except.ok (nextState, hasChanged) =>
      let hasChanged :=
        hasChanged || decide (c.finalReducers.length ≠ jKeysLength state)
      if hasChanged then
        Except.ok { oid := freshOid, fields := nextState }
      else
        Except.ok state

/-- The composite reducer as seen by the store core: a `combination`
closure lifted to the root-reducer type.  `freshOid` stands for the fresh
object identity the call would allocate. -/
def combinationR (c : Combined) (freshOid : Nat) : RRed JObj :=
  fun state? action => (combination c state? freshOid action).map some

/-! Store construction (`createStore`). -/

/-- The `preloadedState` argument position: absent, a non-callable value,
or a callable (enhancer-like) argument. -/
inductive PreloadedArg (S : Type) where
  | undef
  | val (s : S)
  | fn
deriving DecidableEq

/-- The `enhancer` argument position.  The enhancer body is opaque to the
core (control is handed to it), so no payload is carried. -/
inductive EnhancerArg where
  | undef
  | val
  | fn
deriving DecidableEq

/-- The `reducer` argument position: a callable carries the actual root
reducer, anything else only matters for the typeof check. -/
inductive ReducerArg (S : Type) where
  | fn (r : RRed S)
  | notFn

/-- Outcome of `createStore`: a synchronous throw, delegation to the
enhancer (which receives `createStore` itself plus the reducer and the
recorded preloaded state), or a fully seeded store. -/
inductive CreateResult (S : Type) where
  | threw (e : Err)
  | enhanced (preloaded : Option S)
  | made (st : StoreSt S)

/-- Whether a `PreloadedArg` is a callable (`typeof x === 'function'`). -/
def PreloadedArg.isFn {S : Type} : PreloadedArg S → Bool
  | .fn => true
  | _ => false

/-- Whether a `PreloadedArg` is absent (`typeof x === 'undefined'`). -/
def PreloadedArg.isUndef {S : Type} : PreloadedArg S → Bool
  | .undef => true
  | _ => false

/-- Whether an `EnhancerArg` is a callable. -/
def EnhancerArg.isFn : EnhancerArg → Bool
  | .fn => true
  | _ => false

/-- Whether an `EnhancerArg` is absent. -/
def EnhancerArg.isUndef : EnhancerArg → Bool
  | .undef => true
  | _ => false

/-- Message of the multiple-enhancers throw in `createStore`. -/
def severalEnhancersMessage : String :=
  "It looks like you are passing several store enhancers to " ++
  "createStore(). This is not supported. Instead, compose them " ++
  "together to a single function."

/-- The `{ type: ActionTypes.INIT }` literal dispatched at the end of
`createStore` to seed the initial state. -/
def initAction : Action :=
  { aid := 1, isPlain := true, type := some ActionTypes.INIT }

/-- Source: `createStore`.  Follows the source order exactly: the
ambiguous-enhancers check over the raw argument positions (including
`arguments[3]`), the overload shuffle moving a callable second argument
into the enhancer position when the third is absent, the enhancer
delegation (or typeof failure), the reducer typeof check, then the closure
state set-up and the seeding dispatch of the reserved INIT action (whose
exception, if any, propagates out of construction). -/
def createStore {S : Type} (sid : Nat) (reducer : ReducerArg S)
    (preloadedState : PreloadedArg S) (enhancer : EnhancerArg)
    (arg3IsFn : Bool) : CreateResult S :=
  if (preloadedState.isFn && enhancer.isFn) || (enhancer.isFn && arg3IsFn) then
    CreateResult.threw (Err.argumentError severalEnhancersMessage)
  else
    let args : PreloadedArg S × EnhancerArg :=
      if preloadedState.isFn && enhancer.isUndef then
        (PreloadedArg.undef, EnhancerArg.fn)
      else (preloadedState, enhancer)
    let preloadedState := args.1
    let enhancer := args.2
    if enhancer.isUndef = false then
      if enhancer.isFn = false then
        CreateResult.threw (Err.argumentError "Expected the enhancer to be a function.")
      else
        CreateResult.enhanced
          (match preloadedState with
            | PreloadedArg.val s => some s
            | _ => none)
    else
      match reducer with
      | ReducerArg.notFn =>
        CreateResult.threw (Err.argumentError "Expected the reducer to be a function.")
      | ReducerArg.fn r =>
        let st0 : StoreSt S :=
          { sid := sid,
            currentReducer := r,
            currentState :=
              (match preloadedState with
                | PreloadedArg.val s => some s
                | _ => none),
            currentListeners := some [],
            nextListeners := [],
            listenersShared := true,
            isDispatching := false,
            log := [] }
        match dispatch (fun _ => LProg.nop) 1 st0 initAction with
        | (st1, Except.ok _) => CreateResult.made st1
        | (_, Except.error e) => CreateResult.threw e

/-! Concrete stores, reducers and listener environments used to evaluate
the model on closed inputs. -/

/-- A root reducer counting dispatched actions. -/
def incReducer : RRed Nat :=
  fun s _ => Except.ok (some (s.getD 0 + 1))

/-- A root reducer that keeps the state unchanged. -/
def idReducer : RRed Nat :=
  fun s _ => Except.ok s

/-- A root reducer that throws on every action. -/
def throwReducer : RRed Nat :=
  fun _ _ => Except.error (Err.reducerContractError "boom")

/-- A valid application action of type "A". -/
def actA : Action := { aid := 10, isPlain := true, type := some "A" }

/-- A valid application action of type "B". -/
def actB : Action := { aid := 11, isPlain := true, type := some "B" }

/-- A store with one registered listener (id 5) and a counting reducer. -/
def stNested : StoreSt Nat :=
  { sid := 1,
    currentReducer := incReducer,
    currentState := some 0,
    currentListeners := some [5],
    nextListeners := [5],
    listenersShared := true,
    isDispatching := false,
    log := [] }

/-- Listener environment where listener 5 dispatches `actB` from inside the
notification pass (guarded so it fires only once). -/
def lenvNested : Nat → LProg :=
  fun l => if l = 5 then LProg.dispatchOnce 99 actB else LProg.nop

/-- A store with one registered listener (id 1) used for the
subscribe-from-listener scenario. -/
def stSnap : StoreSt Nat :=
  { sid := 7,
    currentReducer := incReducer,
    currentState := some 0,
    currentListeners := some [1],
    nextListeners := [1],
    listenersShared := true,
    isDispatching := false,
    log := [] }

/-- Listener environment where listener 1 subscribes listener 2 from inside
the notification pass, and listener 2 logs tag 7 when invoked. -/
def lenvSnap : Nat → LProg :=
  fun l => if l = 1 then LProg.subscribeNew 2 else if l = 2 then LProg.record 7 else LProg.nop

/-- A listener-free store whose reducer throws on every action. -/
def stThrow : StoreSt Nat :=
  { sid := 2,
    currentReducer := throwReducer,
    currentState := some 7,
    currentListeners := some [],
    nextListeners := [],
    listenersShared := true,
    isDispatching := false,
    log := [] }

/-- A listener-free store with a counting reducer and no dispatch in
progress. -/
def stPlain : StoreSt Nat :=
  { sid := 8,
    currentReducer := incReducer,
    currentState := some 0,
    currentListeners := some [],
    nextListeners := [],
    listenersShared := true,
    isDispatching := false,
    log := [] }

/-- A store observed in the middle of a dispatch (`isDispatching` set). -/
def stMid : StoreSt Nat :=
  { sid := 3,
    currentReducer := incReducer,
    currentState := some 0,
    currentListeners := none,
    nextListeners := [],
    listenersShared := false,
    isDispatching := true,
    log := [] }

/-- A per-key counter reducer: initial slice 0, increments on "INC",
returns the incoming slice unchanged otherwise. -/
def countRed : SliceRed :=
  fun s a =>
    match s with
    | none => some 0
    | some v => if a.type = some "INC" then some (v + 1) else some v

/-- A per-key reducer violating the composer contract: returns undefined
for every action. -/
def badRed : SliceRed := fun _ _ => none

/-- A one-key transition map for the composer. -/
def rsCount : List (String × Option SliceRed) := [("count", some countRed)]

/-- A transition map whose second entry violates the composer contract. -/
def rsBad : List (String × Option SliceRed) :=
  [("good", some countRed), ("bad", some badRed)]

/-- A composite state carrying `count = 5` and a stale key `old = 9`. -/
def sCount : JObj := { oid := 200, fields := [("count", 5), ("old", 9)] }

/-- A composite state holding exactly the `count` slice. -/
def sJust : JObj := { oid := 100, fields := [("count", 5)] }

/-- A store over composite states whose current state is `sCount`, about to
have its transition function replaced. -/
def stSwap : StoreSt JObj :=
  { sid := 5,
    currentReducer := fun s _ => Except.ok s,
    currentState := some sCount,
    currentListeners := some [],
    nextListeners := [],
    listenersShared := true,
    isDispatching := false,
    log := [] }

/-- Listener environment where listener 4 logs tag 5 and everything else
does nothing. -/
def lenvRec : Nat → LProg :=
  fun x => if x = 4 then LProg.record 5 else LProg.nop

/-! Helper lemmas about the store operations. -/

/-- Re-clearing an already clear `isDispatching` flag is the identity. -/
theorem setDispatchingFalse_eq {S : Type} (st : StoreSt S)
    (h : st.isDispatching = false) :
    ({ st with isDispatching := false } : StoreSt S) = st := by
  cases st
  simp_all

/-- When no dispatch is in progress and the sharing flag is truthful,
`subscribe` appends the listener to `nextListeners` (after the
copy-on-write step, which always leaves the lists unshared). -/
theorem subscribe_spec {S : Type} (st : StoreSt S) (l : Nat)
    (hinv : StoreInv st) (hflag : st.isDispatching = false) :
    subscribe st l
      = ({ st with nextListeners := st.nextListeners ++ [l],
                   listenersShared := false }, Except.ok ()) := by
  unfold subscribe ensureCanMutateNextListeners
  rw [if_neg (by simp [hflag])]
  by_cases hs : st.listenersShared = true
  · rw [hinv hs]
    cases st
    simp_all
  · cases st
    simp_all

/-- A notification pass over do-nothing listeners leaves the store
unchanged and succeeds. -/
theorem notify_nop {S : Type}
    (dsp : StoreSt S → Action → StoreSt S × Except Err Action)
    (lenv : Nat → LProg) :
    ∀ (L : List Nat) (st : StoreSt S), (∀ x ∈ L, lenv x = LProg.nop) →
      notifyListeners dsp lenv L st = (st, Except.ok ()) := by
  intro L
  induction L with
  | nil => intro st _; rfl
  | cons l rest ih =>
    intro st h
    have hl : lenv l = LProg.nop := h l (List.mem_cons_self l rest)
    simp only [notifyListeners, hl]
    exact ih st (fun x hx => h x (List.mem_cons_of_mem l hx))

/-- A notification pass over an appended list first runs the prefix; if the
prefix pass succeeds, the suffix pass continues from the resulting store. -/
theorem notify_append_ok {S : Type}
    (dsp : StoreSt S → Action → StoreSt S × Except Err Action)
    (lenv : Nat → LProg) :
    ∀ (L1 L2 : List Nat) (st st1 : StoreSt S),
      notifyListeners dsp lenv L1 st = (st1, Except.ok ()) →
      notifyListeners dsp lenv (L1 ++ L2) st = notifyListeners dsp lenv L2 st1 := by
  intro L1
  induction L1 with
  | nil =>
    intro L2 st st1 h
    simp only [notifyListeners] at h
    cases h
    rfl
  | cons l rest ih =>
    intro L2 st st1 h
    cases hl : lenv l with
    | nop =>
      simp only [notifyListeners, hl, List.cons_append] at h ⊢
      exact ih L2 _ _ h
    | record tag =>
      simp only [notifyListeners, hl, List.cons_append] at h ⊢
      exact ih L2 _ _ h
    | subscribeNew l2 =>
      simp only [notifyListeners, hl, List.cons_append] at h ⊢
      rcases hsub : subscribe st l2 with ⟨st2, r2⟩
      rw [hsub] at h
      cases r2 with
      | error e => exact absurd h (by simp)
      | ok _ => exact ih L2 _ _ h
    | dispatchAct a =>
      simp only [notifyListeners, hl, List.cons_append] at h ⊢
      rcases hd : dsp st a with ⟨st2, r2⟩
      rw [hd] at h
      cases r2 with
      | error e => exact absurd h (by simp)
      | ok _ => exact ih L2 _ _ h
    | dispatchOnce tag a =>
      simp only [notifyListeners, hl, List.cons_append] at h ⊢
      by_cases htag : tag ∈ st.log
      · rw [if_pos htag] at h ⊢
        exact ih L2 _ _ h
      · rw [if_neg htag] at h ⊢
        rcases hd : dsp { st with log := st.log ++ [tag] } a with ⟨st2, r2⟩
        rw [hd] at h
        cases r2 with
        | error e => exact absurd h (by simp)
        | ok _ => exact ih L2 _ _ h

/-- `findIdx?` locates the first occurrence of an element appended after a
prefix that does not contain it. -/
theorem findIdx_first_occurrence (l : Nat) :
    ∀ (base : List Nat) (tail : List Nat), l ∉ base →
      List.findIdx? (fun y => y = l) (base ++ l :: tail) = some base.length := by
  intro base
  induction base with
  | nil => intro tail _; simp
  | cons b bs ih =>
    intro tail h
    have hb : ¬ (b = l) := fun hbl => h (hbl ▸ List.mem_cons_self b bs)
    have ih' := ih tail (fun hx => h (List.mem_cons_of_mem b hx))
    simp only [List.cons_append, List.findIdx?_cons, decide_eq_true_eq, if_neg hb,
      List.findIdx?_succ, ih']
    simp

/-- Erasing at the index right after a prefix removes the appended head. -/
theorem eraseIdx_after_prefix (x : Nat) :
    ∀ (base tail : List Nat),
      (base ++ x :: tail).eraseIdx base.length = base ++ tail := by
  intro base
  induction base with
  | nil => intro tail; rfl
  | cons b bs ih => intro tail; simp [List.eraseIdx, ih tail]

/-- The `indexOf`/`splice` pair used by `unsubscribe` removes exactly the
first occurrence of the listener. -/
theorem jsSplice_removes_first (base tail : List Nat) (l : Nat) (h : l ∉ base) :
    jsSplice1 (base ++ l :: tail) (jsIndexOf (base ++ l :: tail) l) = base ++ tail := by
  have hidx : jsIndexOf (base ++ l :: tail) l = (base.length : Int) := by
    unfold jsIndexOf
    rw [findIdx_first_occurrence l base tail h]
  rw [hidx]
  have hle : (base.length : Int) ≤ ((base ++ l :: tail).length : Int) := by
    simp only [List.length_append, List.length_cons]
    push_cast
    omega
  simp only [jsSplice1]
  rw [if_neg (not_lt.mpr (Int.natCast_nonneg _)), min_eq_left hle, Int.toNat_ofNat]
  exact eraseIdx_after_prefix l base tail

/-! Helper lemmas about the reducer composer. -/

/-- If some retained reducer fails one of the two shape probes, the shape
assertion reports the first such key with the matching message. -/
theorem assertReducerShape_of_bad :
    ∀ L : List (String × SliceRed),
      (∃ p ∈ L, p.2 none shapeInitAction = none ∨ p.2 none shapeProbeAction = none) →
      ∃ p ∈ L, (p.2 none shapeInitAction = none ∨ p.2 none shapeProbeAction = none)
        ∧ (assertReducerShape L
              = some (Err.reducerContractError (initializationUndefinedMessage p.1))
            ∨ assertReducerShape L
              = some (Err.reducerContractError (probeUndefinedMessage p.1))) := by
  intro L
  induction L with
  | nil => rintro ⟨p, hp, _⟩; exact absurd hp (List.not_mem_nil p)
  | cons q rest ih =>
    rintro ⟨p, hp, hbad⟩
    obtain ⟨k, r⟩ := q
    by_cases h1 : r none shapeInitAction = none
    · refine ⟨(k, r), List.mem_cons_self _ _, Or.inl h1, Or.inl ?_⟩
      simp [assertReducerShape, h1]
    · by_cases h2 : r none shapeProbeAction = none
      · refine ⟨(k, r), List.mem_cons_self _ _, Or.inr h2, Or.inr ?_⟩
        simp [assertReducerShape, h1, h2]
      · have hrest : assertReducerShape ((k, r) :: rest) = assertReducerShape rest := by
          simp [assertReducerShape, h1, h2]
        have hp' : p ∈ rest := by
          rcases List.mem_cons.mp hp with hph | hpr
          · subst hph
            rcases hbad with hb | hb
            · exact absurd hb h1
            · exact absurd hb h2
          · exact hpr
        obtain ⟨p', hp'', hbad', heq⟩ := ih ⟨p, hp', hbad⟩
        exact ⟨p', List.mem_cons_of_mem _ hp'', hbad', hrest ▸ heq⟩

/-- A captured shape error is re-raised identically on every invocation of
the composite, whatever the state and action. -/
theorem combination_of_shapeError (c : Combined) (e : Err)
    (h : c.shapeAssertionError = some e) :
    ∀ (state? : Option JObj) (freshOid : Nat) (action : Action),
      combination c state? freshOid action = Except.error e := by
  intro state? freshOid action
  simp [combination, h]

/-- Full characterization of the per-key loop when every retained reducer
returns a defined slice: it succeeds, produces the retained keys in order,
looks up to each per-key result (given distinct keys), and its change flag
is clear exactly when every per-key result is reference-equal to its input
slice. -/
theorem combinationCore_spec (s : JObj) (a : Action) :
    ∀ L : List (String × SliceRed),
      (∀ p ∈ L, p.2 (jGet s p.1) a ≠ none) →
      ∃ ns hc, combinationCore s a L = Except.ok (ns, hc)
        ∧ ns.map Prod.fst = L.map Prod.fst
        ∧ ((L.map Prod.fst).Nodup →
            ∀ p ∈ L, (ns.find? (fun q => q.1 = p.1)).map (fun q => q.2)
              = p.2 (jGet s p.1) a)
        ∧ (hc = false ↔ ∀ p ∈ L, p.2 (jGet s p.1) a = jGet s p.1) := by
  intro L
  induction L with
  | nil =>
    intro _
    exact ⟨[], false, rfl, rfl, fun _ p hp => absurd hp (List.not_mem_nil p), by simp⟩
  | cons q rest ih =>
    intro hdef
    obtain ⟨k, r⟩ := q
    have hd : r (jGet s k) a ≠ none := hdef (k, r) (List.mem_cons_self _ _)
    rcases hv : r (jGet s k) a with _ | v
    · exact absurd hv hd
    obtain ⟨ns, hc, hcore, hkeys, hlook, hflag⟩ :=
      ih (fun p hp => hdef p (List.mem_cons_of_mem _ hp))
    refine ⟨(k, v) :: ns, decide (some v ≠ jGet s k) || hc, ?_, ?_, ?_, ?_⟩
    · simp only [combinationCore, hv, hcore]
    · simp [hkeys]
    · intro hnd p hp
      rw [List.map_cons] at hnd
      rcases List.mem_cons.mp hp with hph | hpr
      · subst hph
        rw [List.find?_cons_of_pos _ (by simp)]
        simpa using hv.symm
      · have hne : p.1 ≠ k := by
          intro hkk
          have hk1 : p.1 ∈ rest.map Prod.fst := List.mem_map_of_mem Prod.fst hpr
          exact (List.nodup_cons.mp hnd).1 (hkk ▸ hk1)
        rw [List.find?_cons_of_neg _ (by simp only [decide_eq_true_eq]; exact Ne.symm hne)]
        exact hlook (List.nodup_cons.mp hnd).2 p hpr
    · simp only [Bool.or_eq_false_iff, decide_eq_false_iff_not, not_not,
        List.forall_mem_cons, hv, hflag]

/-- Branch behaviour of the composite on a defined incoming state, given
that every retained reducer returns a defined slice: if every slice is
reference-unchanged and the key counts agree, the original state reference
is returned; otherwise a newly allocated object is returned that carries
the retained keys in order with each per-key result. -/
theorem combination_spec (c : Combined) (s : JObj) (freshOid : Nat) (a : Action)
    (hsh : c.shapeAssertionError = none)
    (hdef : ∀ p ∈ c.finalReducers, p.2 (jGet s p.1) a ≠ none) :
    (((∀ p ∈ c.finalReducers, p.2 (jGet s p.1) a = jGet s p.1)
        ∧ c.finalReducers.length = jKeysLength s) →
      combination c (some s) freshOid a = Except.ok s)
    ∧ ((¬ ((∀ p ∈ c.finalReducers, p.2 (jGet s p.1) a = jGet s p.1)
        ∧ c.finalReducers.length = jKeysLength s)) →
      ∃ o, combination c (some s) freshOid a = Except.ok o
        ∧ o.oid = freshOid
        ∧ o.fields.map Prod.fst = c.finalReducers.map Prod.fst
        ∧ ((c.finalReducers.map Prod.fst).Nodup →
            ∀ p ∈ c.finalReducers, jGet o p.1 = p.2 (jGet s p.1) a)) := by
  obtain ⟨ns, hc, hcore, hkeys, hlook, hflag⟩ :=
    combinationCore_spec s a c.finalReducers hdef
  constructor
  · rintro ⟨hrefl, hlen⟩
    have hhc : hc = false := hflag.mpr hrefl
    subst hhc
    simp only [combination, hsh, Option.getD_some, hcore, Bool.false_or]
    rw [if_neg (by simp [hlen])]
  · intro hnot
    have hcond : (hc || decide (c.finalReducers.length ≠ jKeysLength s)) = true := by
      rcases not_and_or.mp hnot with hA | hB
      · have hhc : hc = true := by
          cases hhc : hc
          · exact absurd (hflag.mp hhc) hA
          · rfl
        simp [hhc]
      · simp [hB]
    refine ⟨{ oid := freshOid, fields := ns }, ?_, rfl, by simpa using hkeys, ?_⟩
    · simp only [combination, hsh, Option.getD_some, hcore]
      rw [if_pos hcond]
    · intro hnd p hp
      simpa only [jGet] using hlook hnd p hp

/-- Whatever branch the composite takes, each retained key of a
successfully returned composite state holds that key's per-key result. -/
theorem combination_get (c : Combined) (s : JObj) (freshOid : Nat) (a : Action)
    (hsh : c.shapeAssertionError = none)
    (hdef : ∀ p ∈ c.finalReducers, p.2 (jGet s p.1) a ≠ none)
    (hnd : (c.finalReducers.map Prod.fst).Nodup) :
    ∀ o, combination c (some s) freshOid a = Except.ok o →
      ∀ p ∈ c.finalReducers, jGet o p.1 = p.2 (jGet s p.1) a := by
  intro o ho p hp
  by_cases hcase : (∀ q ∈ c.finalReducers, q.2 (jGet s q.1) a = jGet s q.1)
      ∧ c.finalReducers.length = jKeysLength s
  · have h1 := (combination_spec c s freshOid a hsh hdef).1 hcase
    rw [h1] at ho
    obtain rfl : s = o := Except.ok.inj ho
    exact (hcase.1 p hp).symm
  · obtain ⟨o', ho', _, _, hget⟩ := (combination_spec c s freshOid a hsh hdef).2 hcase
    rw [ho'] at ho
    obtain rfl : o' = o := Except.ok.inj ho
    exact hget hnd p hp

/-- Shape of `dispatch` when validation passes and the reducer returns
normally: the state is swapped, the listener snapshot is frozen, and the
result is whatever the notification pass produces (with the original action
returned on success). -/
theorem dispatch_success_shape (S : Type) (lenv : Nat → LProg) (fuel : Nat)
    (st : StoreSt S) (a : Action) (ns : Option S)
    (hflag : st.isDispatching = false) (hp : a.isPlain = true)
    (ht : a.type ≠ none)
    (hred : st.currentReducer st.currentState a = Except.ok ns) :
    dispatch lenv (fuel + 1) st a
      = (match notifyListeners (dispatch lenv fuel) lenv st.nextListeners
            { st with
              currentState := ns,
              isDispatching := false,
              currentListeners := some st.nextListeners,
              listenersShared := true } with
         | (st2, Except.error e) => (st2, Except.error e)
         | (st2, Except.ok _) => (st2, Except.ok a)) := by
  unfold dispatch
  rw [if_neg (by simp [hp]), if_neg (by simp [ht]), if_neg (by simp [hflag]), hred]

/-- When no dispatch is in progress and the sharing flag is truthful, a
live `unsubscribe` removes the first occurrence of its listener (via
`indexOf`/`splice`), nulls out `currentListeners`, and clears its
`isSubscribed` flag. -/
theorem unsubscribe_spec (S : Type) (st : StoreSt S) (l : Nat)
    (hinv : StoreInv st) (hflag : st.isDispatching = false) :
    unsubscribe st { listener := l, isSubscribed := true }
      = ({ st with
            nextListeners := jsSplice1 st.nextListeners (jsIndexOf st.nextListeners l),
            currentListeners := none, listenersShared := false },
         { listener := l, isSubscribed := false }, Except.ok ()) := by
  obtain ⟨sid, red, cs, cl, nl, sh, d, lg⟩ := st
  simp only [StoreInv] at hinv
  simp only at hflag
  subst hflag
  cases sh with
  | true =>
    have hcl := hinv rfl
    simp only at hcl
    subst hcl
    simp [unsubscribe, ensureCanMutateNextListeners]
  | false =>
    simp [unsubscribe, ensureCanMutateNextListeners]

/-- A notification pass over benign listeners followed by one occurrence of
a tag-recording listener appends one tag to the log. -/
theorem notify_nop_then_record (S : Type)
    (dsp : StoreSt S → Action → StoreSt S × Except Err Action)
    (lenv : Nat → LProg) (base : List Nat) (l t : Nat) (st : StoreSt S)
    (hnop : ∀ x ∈ base, lenv x = LProg.nop) (hl : lenv l = LProg.record t) :
    notifyListeners dsp lenv (base ++ [l]) st
      = ({ st with log := st.log ++ [t] }, Except.ok ()) := by
  rw [notify_append_ok dsp lenv base [l] st st (notify_nop dsp lenv base st hnop)]
  simp only [notifyListeners, hl]

/-- A notification pass over benign listeners followed by two occurrences
of the same tag-recording listener appends the tag twice. -/
theorem notify_nop_then_record_twice (S : Type)
    (dsp : StoreSt S → Action → StoreSt S × Except Err Action)
    (lenv : Nat → LProg) (base : List Nat) (l t : Nat) (st : StoreSt S)
    (hnop : ∀ x ∈ base, lenv x = LProg.nop) (hl : lenv l = LProg.record t) :
    notifyListeners dsp lenv (base ++ [l, l]) st
      = ({ st with log := st.log ++ [t, t] }, Except.ok ()) := by
  rw [notify_append_ok dsp lenv base [l, l] st st (notify_nop dsp lenv base st hnop)]
  simp only [notifyListeners, hl]
  simp

/-- Shape of `dispatch` when validation passes and the reducer throws: the
flag is re-cleared by the finally block and the error propagates. -/
theorem dispatch_error_shape (S : Type) (lenv : Nat → LProg) (fuel : Nat)
    (st : StoreSt S) (a : Action) (e : Err)
    (hflag : st.isDispatching = false) (hp : a.isPlain = true)
    (ht : a.type ≠ none)
    (hred : st.currentReducer st.currentState a = Except.error e) :
    dispatch lenv (fuel + 1) st a
      = ({ st with isDispatching := false }, Except.error e) := by
  unfold dispatch
  rw [if_neg (by simp [hp]), if_neg (by simp [ht]), if_neg (by simp [hflag]), hred]

/-! Claim theorems. -/

/-- C1, counterexample: the claim asserts that a dispatch issued from
within a listener invoked synchronously inside dispatch is rejected with a
reentrancy error.  In the source, the try/finally clears `isDispatching`
before the listener loop starts, so such a nested dispatch succeeds: here
listener 5 dispatches `actB` from inside the notification pass of a
dispatch of `actA`, the outer dispatch returns the action normally, and
the counting reducer has run twice. -/
theorem listener_dispatch_not_rejected :
    (dispatch lenvNested 2 stNested actA).2 = Except.ok actA
    ∧ (dispatch lenvNested 2 stNested actA).1.currentState = some 2 :=
  ⟨rfl, rfl⟩

/-- C1, amended: dispatch fails with the reentrancy error whenever it is
entered while the in-progress flag is set - in particular for a nested
dispatch issued from within the transition function, which runs with the
flag set - but listener invocations execute after the flag has been
cleared, so a dispatch issued from within a listener is not rejected (the
concrete scenario of the counterexample, at ample stack depth). -/
theorem dispatch_reentrancy_guard :
    (∀ (S : Type) (lenv : Nat → LProg) (fuel : Nat) (st : StoreSt S) (a : Action),
        st.isDispatching = true → a.isPlain = true → a.type ≠ none →
        dispatch lenv (fuel + 1) st a
          = (st, Except.error (Err.reentrancyError reducersMayNotDispatchMessage)))
    ∧ ((dispatch lenvNested 3 stNested actA).2 = Except.ok actA
        ∧ (dispatch lenvNested 3 stNested actA).1.currentState = some 2) := by
  constructor
  · intro S lenv fuel st a hd hp ht
    unfold dispatch
    rw [if_neg (by simp [hp]), if_neg (by simp [ht]), if_pos (by simp [hd])]
  · exact ⟨rfl, rfl⟩

/-- C1, witness for the amended theorem: a store whose flag is set rejects
a well-formed dispatch. -/
theorem dispatch_reentrancy_guard_witness :
    dispatch lenvNested 1 stMid actA
      = (stMid, Except.error (Err.reentrancyError reducersMayNotDispatchMessage)) :=
  dispatch_reentrancy_guard.1 Nat lenvNested 0 stMid actA rfl rfl (by decide)

/-- C2: if the transition function throws during a dispatch of a
well-formed action, the error surfaces to the caller, the store is exactly
as before (same state reference, same listener lists, no listener
invoked - the log is unchanged), the in-progress flag is clear, and a
subsequent `getState` succeeds. -/
theorem dispatch_reducer_error_aborts (S : Type) (lenv : Nat → LProg)
    (fuel : Nat) (st : StoreSt S) (a : Action) (e : Err)
    (hflag : st.isDispatching = false) (hp : a.isPlain = true)
    (ht : a.type ≠ none)
    (hred : st.currentReducer st.currentState a = Except.error e) :
    dispatch lenv (fuel + 1) st a = (st, Except.error e)
    ∧ getState st = Except.ok st.currentState := by
  constructor
  · unfold dispatch
    rw [if_neg (by simp [hp]), if_neg (by simp [ht]), if_neg (by simp [hflag]), hred]
    show ({ st with isDispatching := false }, Except.error e) = (st, Except.error e)
    rw [setDispatchingFalse_eq st hflag]
  · simp [getState, hflag]

/-- C2, witness: a store whose reducer always throws is left untouched by
a dispatch and still answers `getState`. -/
theorem dispatch_reducer_error_aborts_witness :
    dispatch (fun _ => LProg.nop) 1 stThrow actA
      = (stThrow, Except.error (Err.reducerContractError "boom"))
    ∧ getState stThrow = Except.ok (some 7) :=
  dispatch_reducer_error_aborts Nat (fun _ => LProg.nop) 0 stThrow actA
    (Err.reducerContractError "boom") rfl rfl (by decide) rfl

/-- C6: overload resolution and ambiguity detection in `createStore`.
First, a callable second argument with an absent third argument is
interpreted as the extension hook - construction delegates to the enhancer
and no initial state is recorded.  Second, callables in the second and
third positions simultaneously, or in the third and fourth positions
simultaneously, make construction fail with the multiple-enhancers
argument error. -/
theorem createStore_overload_resolution :
    (∀ (S : Type) (sid : Nat) (r : ReducerArg S) (a3 : Bool),
        createStore sid r PreloadedArg.fn EnhancerArg.undef a3
          = CreateResult.enhanced none)
    ∧ (∀ (S : Type) (sid : Nat) (r : ReducerArg S) (p : PreloadedArg S)
          (e : EnhancerArg) (a3 : Bool),
        (p.isFn = true ∧ e.isFn = true) ∨ (e.isFn = true ∧ a3 = true) →
        createStore sid r p e a3
          = CreateResult.threw (Err.argumentError severalEnhancersMessage)) := by
  constructor
  · intro S sid r a3
    simp [createStore, PreloadedArg.isFn, PreloadedArg.isUndef,
      EnhancerArg.isFn, EnhancerArg.isUndef]
  · rintro S sid r p e a3 (⟨h1, h2⟩ | ⟨h1, h2⟩) <;>
      simp [createStore, h1, h2]

/-- C6, witness: callables in both the second and third positions are
rejected at a concrete instantiation. -/
theorem createStore_overload_resolution_witness :
    createStore 0 (ReducerArg.fn incReducer) PreloadedArg.fn EnhancerArg.fn false
      = CreateResult.threw (Err.argumentError severalEnhancersMessage) :=
  createStore_overload_resolution.2 Nat 0 (ReducerArg.fn incReducer)
    PreloadedArg.fn EnhancerArg.fn false (Or.inl ⟨rfl, rfl⟩)

/-- C7: `subscribe` during an active dispatch (flag set) raises the
reentrancy error; but a subscribe issued from inside a listener succeeds -
in the concrete scenario listener 1 subscribes listener 2 during the pass:
the pass still returns normally, listener 2 lands in `nextListeners` only
(the frozen `currentListeners` snapshot is unchanged), listener 2 is not
invoked during that pass (log still empty), and it is invoked on the next
dispatch (log picks up its tag). -/
theorem subscribe_during_dispatch_semantics :
    (∀ (S : Type) (st : StoreSt S) (l : Nat), st.isDispatching = true →
        subscribe st l
          = (st, Except.error (Err.reentrancyError subscribeDispatchingMessage)))
    ∧ ((dispatch lenvSnap 2 stSnap actA).2 = Except.ok actA
        ∧ (dispatch lenvSnap 2 stSnap actA).1.nextListeners = [1, 2]
        ∧ (dispatch lenvSnap 2 stSnap actA).1.currentListeners = some [1]
        ∧ (dispatch lenvSnap 2 stSnap actA).1.log = []
        ∧ (dispatch lenvSnap 2 ((dispatch lenvSnap 2 stSnap actA).1) actA).1.log
            = [7]) := by
  constructor
  · intro S st l h
    simp [subscribe, h]
  · exact ⟨rfl, rfl, rfl, rfl, rfl⟩

/-- C7, witness: subscribing while the flag is set is rejected at a
concrete store. -/
theorem subscribe_during_dispatch_semantics_witness :
    subscribe stMid 9
      = (stMid, Except.error (Err.reentrancyError subscribeDispatchingMessage)) :=
  subscribe_during_dispatch_semantics.1 Nat stMid 9 rfl

/-- C8: for a well-formed action dispatched while no dispatch is in
progress, whenever dispatch returns normally it returns the very action
object it was given; and when the reducer returns normally and the
registered listeners are benign, it does return normally with that
action. -/
theorem dispatch_returns_action (S : Type) (lenv : Nat → LProg) (fuel : Nat)
    (st : StoreSt S) (a : Action)
    (hflag : st.isDispatching = false) (hp : a.isPlain = true)
    (ht : a.type ≠ none) :
    (∀ (st2 : StoreSt S) (r : Action),
        dispatch lenv (fuel + 1) st a = (st2, Except.ok r) → r = a)
    ∧ ((∃ ns, st.currentReducer st.currentState a = Except.ok ns) →
        (∀ x ∈ st.nextListeners, lenv x = LProg.nop) →
        (dispatch lenv (fuel + 1) st a).2 = Except.ok a) := by
  constructor
  · intro st2 r h
    rcases hred : st.currentReducer st.currentState a with e | ns
    · rw [dispatch_error_shape S lenv fuel st a e hflag hp ht hred] at h
      exact absurd h (by simp)
    · rw [dispatch_success_shape S lenv fuel st a ns hflag hp ht hred] at h
      rcases hnot : notifyListeners (dispatch lenv fuel) lenv st.nextListeners
          { st with
            currentState := ns,
            isDispatching := false,
            currentListeners := some st.nextListeners,
            listenersShared := true } with ⟨st3, r3⟩
      rw [hnot] at h
      cases r3 with
      | error e => exact absurd h (by simp)
      | ok u =>
        simp only [Prod.mk.injEq] at h
        exact (Except.ok.inj h.2).symm
  · rintro ⟨ns, hred⟩ hnop
    rw [dispatch_success_shape S lenv fuel st a ns hflag hp ht hred]
    rw [notify_nop (dispatch lenv fuel) lenv st.nextListeners _ hnop]

/-- C8, witness: a valid action dispatched on a listener-free counting
store comes back unchanged. -/
theorem dispatch_returns_action_witness :
    (dispatch (fun _ => LProg.nop) 1 stPlain actA).2 = Except.ok actA :=
  (dispatch_returns_action Nat (fun _ => LProg.nop) 0 stPlain actA rfl rfl
      (by decide)).2 ⟨some 1, rfl⟩ (fun x hx => rfl)

/-- C10: calling `replaceReducer` with a callable argument while a
dispatch is in progress swaps the transition function first, then the
internal REPLACE dispatch is rejected with the reentrancy error; the swap
is not rolled back, so the resulting store carries the new transition
function for every subsequent dispatch. -/
theorem replaceReducer_during_dispatch (S : Type) (lenv : Nat → LProg)
    (fuel : Nat) (st : StoreSt S) (r : RRed S)
    (h : st.isDispatching = true) :
    replaceReducer lenv (fuel + 1) st (some r)
      = ({ st with currentReducer := r },
         Except.error (Err.reentrancyError reducersMayNotDispatchMessage))
    ∧ (replaceReducer lenv (fuel + 1) st (some r)).1.currentReducer = r := by
  have h1 : replaceReducer lenv (fuel + 1) st (some r)
      = ({ st with currentReducer := r },
         Except.error (Err.reentrancyError reducersMayNotDispatchMessage)) := by
    simp only [replaceReducer]
    unfold dispatch
    rw [if_neg (by decide), if_neg (by decide), if_pos (by simpa using h)]
  exact ⟨h1, by rw [h1]⟩

/-- C10, witness: replacing the reducer mid-dispatch at a concrete store
keeps the swapped reducer while the REPLACE dispatch errors. -/
theorem replaceReducer_during_dispatch_witness :
    replaceReducer (fun _ => LProg.nop) 1 stMid (some idReducer)
      = ({ stMid with currentReducer := idReducer },
         Except.error (Err.reentrancyError reducersMayNotDispatchMessage)) :=
  (replaceReducer_during_dispatch Nat (fun _ => LProg.nop) 0 stMid idReducer rfl).1

/-- C3: for a composite produced by the composer from a valid transition
map (shape assertion passed, distinct retained keys) and any composite
state and action on which every retained reducer returns a defined slice:
if every per-key result is reference-equal to its input slice and the
retained key count equals the key count of the state, the composite
returns the state reference itself; otherwise it returns a newly
constructed object (fresh identity) whose fields are exactly the retained
keys, in order, each holding its per-key result. -/
theorem combination_reference_semantics (rs : List (String × Option SliceRed))
    (s : JObj) (freshOid : Nat) (a : Action)
    (hsh : (combineReducers rs).shapeAssertionError = none)
    (hnd : ((combineReducers rs).finalReducers.map Prod.fst).Nodup)
    (hdef : ∀ p ∈ (combineReducers rs).finalReducers, p.2 (jGet s p.1) a ≠ none) :
    (((∀ p ∈ (combineReducers rs).finalReducers, p.2 (jGet s p.1) a = jGet s p.1)
        ∧ (combineReducers rs).finalReducers.length = jKeysLength s) →
      combination (combineReducers rs) (some s) freshOid a = Except.ok s)
    ∧ ((¬ ((∀ p ∈ (combineReducers rs).finalReducers,
            p.2 (jGet s p.1) a = jGet s p.1)
        ∧ (combineReducers rs).finalReducers.length = jKeysLength s)) →
      ∃ o, combination (combineReducers rs) (some s) freshOid a = Except.ok o
        ∧ o.oid = freshOid
        ∧ o.fields.map Prod.fst = (combineReducers rs).finalReducers.map Prod.fst
        ∧ ∀ p ∈ (combineReducers rs).finalReducers,
            jGet o p.1 = p.2 (jGet s p.1) a) := by
  have h := combination_spec (combineReducers rs) s freshOid a hsh hdef
  refine ⟨h.1, fun hnot => ?_⟩
  obtain ⟨o, h1, h2, h3, h4⟩ := h.2 hnot
  exact ⟨o, h1, h2, h3, h4 hnd⟩

/-- C3, witness: a one-key counter map over a matching one-key state and
an unrecognized action returns the incoming state reference itself. -/
theorem combination_reference_semantics_witness :
    combination (combineReducers rsCount) (some sJust) 77 actA
      = Except.ok sJust :=
  (combination_reference_semantics rsCount sJust 77 actA (by decide) (by decide)
      (by decide)).1 ⟨by decide, by decide⟩

/-- C4: if some retained per-key reducer returns undefined for the
reserved INIT probe or for the randomized probe, composition captures (and
does not raise - `combineReducers` is a total function in the model) a
reducer contract error naming an offending key, and every invocation of
the composite - first call or any later call, for any state and any
action - raises exactly that captured error. -/
theorem combineReducers_sticky_shape_error (rs : List (String × Option SliceRed))
    (hbad : ∃ p ∈ (combineReducers rs).finalReducers,
        p.2 none shapeInitAction = none ∨ p.2 none shapeProbeAction = none) :
    ∃ p ∈ (combineReducers rs).finalReducers, ∃ e : Err,
      (p.2 none shapeInitAction = none ∨ p.2 none shapeProbeAction = none)
      ∧ (combineReducers rs).shapeAssertionError = some e
      ∧ (e = Err.reducerContractError (initializationUndefinedMessage p.1)
          ∨ e = Err.reducerContractError (probeUndefinedMessage p.1))
      ∧ ∀ (state? : Option JObj) (freshOid : Nat) (action : Action),
          combination (combineReducers rs) state? freshOid action
            = Except.error e := by
  obtain ⟨p, hp, hbadp, heq⟩ :=
    assertReducerShape_of_bad (combineReducers rs).finalReducers hbad
  have hsh : (combineReducers rs).shapeAssertionError
      = assertReducerShape (combineReducers rs).finalReducers := rfl
  rcases heq with he | he
  · exact ⟨p, hp, Err.reducerContractError (initializationUndefinedMessage p.1),
      hbadp, by rw [hsh, he], Or.inl rfl,
      combination_of_shapeError _ _ (by rw [hsh, he])⟩
  · exact ⟨p, hp, Err.reducerContractError (probeUndefinedMessage p.1),
      hbadp, by rw [hsh, he], Or.inr rfl,
      combination_of_shapeError _ _ (by rw [hsh, he])⟩

/-- C4, witness: composing a map whose "bad" entry returns undefined on
every action yields the sticky captured error. -/
theorem combineReducers_sticky_shape_error_witness :
    ∃ p ∈ (combineReducers rsBad).finalReducers, ∃ e : Err,
      (p.2 none shapeInitAction = none ∨ p.2 none shapeProbeAction = none)
      ∧ (combineReducers rsBad).shapeAssertionError = some e
      ∧ (e = Err.reducerContractError (initializationUndefinedMessage p.1)
          ∨ e = Err.reducerContractError (probeUndefinedMessage p.1))
      ∧ ∀ (state? : Option JObj) (freshOid : Nat) (action : Action),
          combination (combineReducers rsBad) state? freshOid action
            = Except.error e :=
  combineReducers_sticky_shape_error rsBad
    ⟨("bad", badRed), List.Mem.tail _ (List.Mem.head _), Or.inl rfl⟩

/-- C5: `replaceReducer` with a callable composite first swaps the active
transition function and then performs one internal dispatch of the
reserved REPLACE action; every key the new composite retains that is
present in the prior state hands that prior value to its per-key reducer
(witnessed by the recomputed slice), and the store identity is
preserved. -/
theorem replaceReducer_migrates_state (lenv : Nat → LProg) (fuel : Nat)
    (st : StoreSt JObj) (rs : List (String × Option SliceRed)) (oid : Nat)
    (s : JObj) (k : String) (rk : SliceRed) (v : V)
    (hflag : st.isDispatching = false)
    (hnop : ∀ x ∈ st.nextListeners, lenv x = LProg.nop)
    (hstate : st.currentState = some s)
    (hsh : (combineReducers rs).shapeAssertionError = none)
    (hnd : ((combineReducers rs).finalReducers.map Prod.fst).Nodup)
    (hdef : ∀ p ∈ (combineReducers rs).finalReducers,
        p.2 (jGet s p.1) replaceAction ≠ none)
    (hk : (k, rk) ∈ (combineReducers rs).finalReducers)
    (hv : jGet s k = some v) :
    ∃ s', replaceReducer lenv (fuel + 1) st
        (some (combinationR (combineReducers rs) oid))
      = ({ st with
            currentReducer := combinationR (combineReducers rs) oid,
            currentState := some s',
            isDispatching := false,
            currentListeners := some st.nextListeners,
            listenersShared := true }, Except.ok ())
      ∧ jGet s' k = rk (some v) replaceAction
      ∧ (replaceReducer lenv (fuel + 1) st
          (some (combinationR (combineReducers rs) oid))).1.sid = st.sid := by
  have hok : ∃ o, combination (combineReducers rs) (some s) oid replaceAction
      = Except.ok o := by
    by_cases hcase : (∀ p ∈ (combineReducers rs).finalReducers,
        p.2 (jGet s p.1) replaceAction = jGet s p.1)
      ∧ (combineReducers rs).finalReducers.length = jKeysLength s
    · exact ⟨s, (combination_spec (combineReducers rs) s oid replaceAction hsh hdef).1 hcase⟩
    · obtain ⟨o, ho, _, _, _⟩ :=
        (combination_spec (combineReducers rs) s oid replaceAction hsh hdef).2 hcase
      exact ⟨o, ho⟩
  obtain ⟨s', hco⟩ := hok
  have hred : (combinationR (combineReducers rs) oid) st.currentState replaceAction
      = Except.ok (some s') := by
    rw [hstate]
    simp [combinationR, hco, Except.map]
  have h1 : replaceReducer lenv (fuel + 1) st
      (some (combinationR (combineReducers rs) oid))
      = ({ st with
            currentReducer := combinationR (combineReducers rs) oid,
            currentState := some s',
            isDispatching := false,
            currentListeners := some st.nextListeners,
            listenersShared := true }, Except.ok ()) := by
    simp only [replaceReducer]
    rw [dispatch_success_shape JObj lenv fuel
      { st with currentReducer := combinationR (combineReducers rs) oid }
      replaceAction (some s') hflag (by decide) (by decide) hred]
    dsimp only
    rw [notify_nop (dispatch lenv fuel) lenv st.nextListeners _ hnop]
  have hget := combination_get (combineReducers rs) s oid replaceAction hsh hdef hnd
    s' hco (k, rk) hk
  rw [hv] at hget
  exact ⟨s', h1, hget, by rw [h1]⟩

/-- C5, witness: swapping in the one-key counter map over a store holding
`count = 5` migrates the prior value into the new count reducer. -/
theorem replaceReducer_migrates_state_witness :
    ∃ s', replaceReducer (fun _ => LProg.nop) 1 stSwap
        (some (combinationR (combineReducers rsCount) 33))
      = ({ stSwap with
            currentReducer := combinationR (combineReducers rsCount) 33,
            currentState := some s',
            isDispatching := false,
            currentListeners := some stSwap.nextListeners,
            listenersShared := true }, Except.ok ())
      ∧ jGet s' "count" = countRed (some 5) replaceAction
      ∧ (replaceReducer (fun _ => LProg.nop) 1 stSwap
          (some (combinationR (combineReducers rsCount) 33))).1.sid = stSwap.sid :=
  replaceReducer_migrates_state (fun _ => LProg.nop) 0 stSwap rsCount 33 sCount
    "count" countRed 5 rfl (fun x hx => rfl) rfl (by decide) (by decide)
    (by decide) (List.Mem.head _) (by decide)

/-- C9: subscribing the same listener twice (outside any dispatch, with a
truthful sharing flag and the listener not yet registered) creates two
entries; a dispatch then invokes it twice (two tags logged); one call to a
returned unsubscribe function succeeds and removes exactly the first
occurrence, leaving one entry; a dispatch then invokes it once. -/
theorem duplicate_subscription_semantics (S : Type) (lenv : Nat → LProg)
    (fuel : Nat) (st : StoreSt S) (l t : Nat) (a : Action) (ns : Option S)
    (hinv : StoreInv st)
    (hflag : st.isDispatching = false)
    (hnotin : l ∉ st.nextListeners)
    (hl : lenv l = LProg.record t)
    (hnop : ∀ x ∈ st.nextListeners, lenv x = LProg.nop)
    (hp : a.isPlain = true) (ht : a.type ≠ none)
    (hred : st.currentReducer st.currentState a = Except.ok ns) :
    (subscribe (subscribe st l).1 l).1.nextListeners = st.nextListeners ++ [l, l]
    ∧ (dispatch lenv (fuel + 1) (subscribe (subscribe st l).1 l).1 a).2
        = Except.ok a
    ∧ (dispatch lenv (fuel + 1) (subscribe (subscribe st l).1 l).1 a).1.log
        = st.log ++ [t, t]
    ∧ (unsubscribe (subscribe (subscribe st l).1 l).1
        { listener := l, isSubscribed := true }).2.2 = Except.ok ()
    ∧ (unsubscribe (subscribe (subscribe st l).1 l).1
        { listener := l, isSubscribed := true }).1.nextListeners
        = st.nextListeners ++ [l]
    ∧ (dispatch lenv (fuel + 1)
        (unsubscribe (subscribe (subscribe st l).1 l).1
          { listener := l, isSubscribed := true }).1 a).2 = Except.ok a
    ∧ (dispatch lenv (fuel + 1)
        (unsubscribe (subscribe (subscribe st l).1 l).1
          { listener := l, isSubscribed := true }).1 a).1.log
        = st.log ++ [t] := by
  have hs1p : (subscribe st l).1
      = { st with
          nextListeners := st.nextListeners ++ [l],
          listenersShared := false } := by
    rw [subscribe_spec st l hinv hflag]
  have hs2p : (subscribe (subscribe st l).1 l).1
      = { st with
          nextListeners := st.nextListeners ++ [l, l],
          listenersShared := false } := by
    rw [hs1p, subscribe_spec
      { st with
        nextListeners := st.nextListeners ++ [l],
        listenersShared := false } l (fun hc => by simp at hc) hflag]
    simp [List.append_assoc]
  have hu : unsubscribe
        { st with
          nextListeners := st.nextListeners ++ [l, l],
          listenersShared := false }
        { listener := l, isSubscribed := true }
      = ({ st with
            nextListeners := st.nextListeners ++ [l],
            currentListeners := none,
            listenersShared := false },
         { listener := l, isSubscribed := false }, Except.ok ()) := by
    rw [unsubscribe_spec S
      { st with
        nextListeners := st.nextListeners ++ [l, l],
        listenersShared := false } l (fun hc => by simp at hc) hflag]
    dsimp only
    rw [jsSplice_removes_first st.nextListeners [l] l hnotin]
  refine ⟨by rw [hs2p], ?_, ?_, by rw [hs2p, hu], by rw [hs2p, hu], ?_, ?_⟩
  · rw [hs2p, dispatch_success_shape S lenv fuel
      { st with
        nextListeners := st.nextListeners ++ [l, l],
        listenersShared := false } a ns hflag hp ht hred]
    dsimp only
    rw [notify_nop_then_record_twice S (dispatch lenv fuel) lenv
      st.nextListeners l t _ hnop hl]
  · rw [hs2p, dispatch_success_shape S lenv fuel
      { st with
        nextListeners := st.nextListeners ++ [l, l],
        listenersShared := false } a ns hflag hp ht hred]
    dsimp only
    rw [notify_nop_then_record_twice S (dispatch lenv fuel) lenv
      st.nextListeners l t _ hnop hl]
  · rw [hs2p, hu, dispatch_success_shape S lenv fuel
      { st with
        nextListeners := st.nextListeners ++ [l],
        currentListeners := none,
        listenersShared := false } a ns hflag hp ht hred]
    dsimp only
    rw [notify_nop_then_record S (dispatch lenv fuel) lenv
      st.nextListeners l t _ hnop hl]
  · rw [hs2p, hu, dispatch_success_shape S lenv fuel
      { st with
        nextListeners := st.nextListeners ++ [l],
        currentListeners := none,
        listenersShared := false } a ns hflag hp ht hred]
    dsimp only
    rw [notify_nop_then_record S (dispatch lenv fuel) lenv
      st.nextListeners l t _ hnop hl]

/-- C9, witness: the double-subscription scenario at a concrete
listener-free counting store. -/
theorem duplicate_subscription_semantics_witness :
    (subscribe (subscribe stPlain 4).1 4).1.nextListeners = [4, 4]
    ∧ (dispatch lenvRec 1 (subscribe (subscribe stPlain 4).1 4).1 actA).2
        = Except.ok actA
    ∧ (dispatch lenvRec 1 (subscribe (subscribe stPlain 4).1 4).1 actA).1.log
        = [5, 5]
    ∧ (unsubscribe (subscribe (subscribe stPlain 4).1 4).1
        { listener := 4, isSubscribed := true }).2.2 = Except.ok ()
    ∧ (unsubscribe (subscribe (subscribe stPlain 4).1 4).1
        { listener := 4, isSubscribed := true }).1.nextListeners = [4]
    ∧ (dispatch lenvRec 1
        (unsubscribe (subscribe (subscribe stPlain 4).1 4).1
          { listener := 4, isSubscribed := true }).1 actA).2 = Except.ok actA
    ∧ (dispatch lenvRec 1
        (unsubscribe (subscribe (subscribe stPlain 4).1 4).1
          { listener := 4, isSubscribed := true }).1 actA).1.log = [5] :=
  duplicate_subscription_semantics Nat lenvRec 0 stPlain 4 5 actA (some 1)
    (by decide) rfl (by decide) rfl (fun x hx => absurd hx (List.not_mem_nil x))
    rfl (by decide) rfl

end Redux
